import Mathlib

/-!
Verification of the tool-call validation and repair engine
(`src/extensions/tool-validator/index.ts`).

The TypeScript source is shallowly embedded below.  JavaScript runtime
values that flow through the validator are modelled by `JsValue`
(JSON-style data, with JS numbers modelled exactly by canonical decimals
plus the two infinities; IEEE-754 rounding never matters for any value the
validator's logic inspects, and NaN is represented by `Option.none`
results of the conversion functions).  JS regular-expression `test` is
modelled by a Brzozowski-derivative matcher over an explicit regex AST;
each of the five danger patterns of the source is transcribed into that
AST.  `JSON.parse` is modelled by a fuel-indexed recursive-descent parser
of the exact JSON grammar (fuel is structurally ample for every input:
each recursive step consumes input characters).  External library code
(`@sinclair/typebox`'s `Value.Check` / `Value.Errors`) is not part of the
repository and is treated as an opaque parameter (`check` / `errf`) of
the engine; theorems quantify over it.
-/

namespace ToolValidator

/-- Exact decimal value `m · 10^e` in canonical form: `m` is not divisible
by 10 unless it is zero, and zero is `⟨0, 0⟩`.  Every number the validator
ever constructs is an exact decimal literal value (JSON and JS numeric
literals); the engine performs no arithmetic on numbers beyond construction
and a zero test, and distinct canonical forms denote distinct reals, so
structural equality is value equality.  (IEEE-754 rounding of enormous
literals is outside this model; no claim involves such values.) -/
structure Dec where
  m : Int
  e : Int
  deriving DecidableEq, Repr

/-- Strip factors of 10 from the mantissa (fuel-bounded by its magnitude). -/
def Dec.makeAux : Nat → Int → Int → Dec
  | 0, m, e => ⟨m, e⟩
  | fuel+1, m, e => if m % 10 = 0 then Dec.makeAux fuel (m / 10) (e + 1) else ⟨m, e⟩

/-- Canonical decimal for `m · 10^e`. -/
def Dec.make (m e : Int) : Dec :=
  if m = 0 then ⟨0, 0⟩ else Dec.makeAux m.natAbs m e

/-- JS number: an exact decimal, or one of the two infinities.  NaN is
represented by `none` at the use sites (`jsNumber`). -/
inductive JsNum where
  | val (d : Dec)
  | posInf
  | negInf
  deriving DecidableEq, Repr

/-- JS runtime value as seen by the validator: JSON data.  Objects are
association lists in property-insertion order (JS string-keyed property
order).  Absence of a key (JS `undefined`) is modelled by `Option.none`
at lookup sites. -/
inductive JsValue where
  | null
  | bool (b : Bool)
  | num (n : JsNum)
  | str (s : String)
  | arr (xs : List JsValue)
  | obj (fields : List (String × JsValue))
  deriving Repr

/-- Argument object of a tool invocation (`Record<string, unknown>`). -/
abbrev JsObj := List (String × JsValue)

/-- The apostrophe character, written via its code point. -/
def sqc : Char := Char.ofNat 39

/-- JS `toLowerCase`, character-wise over the underlying character list
(both sides model ASCII case folding). -/
def strToLower (s : String) : String := ⟨s.data.map Char.toLower⟩

/-- JS `includes` for a single character. -/
def strContains (s : String) (c : Char) : Bool := s.data.contains c

/-- Split on a separator character, keeping empty pieces (JS
`split(",")` semantics). -/
def splitOnChar (c : Char) : List Char → List (List Char)
  | [] => [[]]
  | x :: xs =>
    if x = c then [] :: splitOnChar c xs
    else
      match splitOnChar c xs with
      | [] => [[ x]]
      | p :: ps => (x :: p) :: ps

/-- JS `\s` character class (also the set removed by `String.prototype.trim`):
ASCII whitespace, NBSP, the Unicode space separators, line/paragraph
separators and the BOM. -/
def jsWhitespace (c : Char) : Bool :=
  c == ' ' || c == '\t' || c == '\n' || c == '\r' ||
  c.toNat == 11 || c.toNat == 12 || c.toNat == 0xa0 || c.toNat == 0x1680 ||
  (0x2000 ≤ c.toNat && c.toNat ≤ 0x200a) ||
  c.toNat == 0x2028 || c.toNat == 0x2029 || c.toNat == 0x202f ||
  c.toNat == 0x205f || c.toNat == 0x3000 || c.toNat == 0xfeff

-- ============================================================================
-- Regular expressions (Brzozowski derivatives), modelling JS `RegExp.test`
-- ============================================================================

/-- Regex AST: enough to transcribe the five danger patterns of the source. -/
inductive RE where
  | eps
  | pred (p : Char → Bool)
  | cat (r s : RE)
  | alt (r s : RE)
  | star (r : RE)

/-- Regex matching the empty set. -/
def RE.void : RE := .pred fun _ => false

def RE.nullable : RE → Bool
  | .eps => true
  | .pred _ => false
  | .cat r s => r.nullable && s.nullable
  | .alt r s => r.nullable || s.nullable
  | .star _ => true

def RE.deriv : RE → Char → RE
  | .eps, _ => RE.void
  | .pred p, c => if p c then .eps else RE.void
  | .cat r s, c =>
    if r.nullable then .alt (.cat (r.deriv c) s) (s.deriv c)
    else .cat (r.deriv c) s
  | .alt r s, c => .alt (r.deriv c) (s.deriv c)
  | .star r, c => .cat (r.deriv c) (.star r)

/-- Whole-list match. -/
def RE.matchList (r : RE) (l : List Char) : Bool :=
  (l.foldl RE.deriv r).nullable

/-- Any character (the implicit context of an unanchored JS regex search). -/
def RE.anyc : RE := .pred fun _ => true

/-- JS `.`: any character except a line terminator. -/
def RE.dot : RE :=
  .pred fun c => !(c == '\n' || c == '\r' || c.toNat == 0x2028 || c.toNat == 0x2029)

/-- JS `\s`. -/
def RE.ws : RE := .pred jsWhitespace

def RE.char (c : Char) : RE := .pred fun d => d == c

/-- Case-insensitive literal character (the `i` flag, ASCII case folding). -/
def RE.charCI (c : Char) : RE := .pred fun d => d.toLower == c.toLower

def RE.seq (l : List RE) : RE := l.foldr .cat .eps

def RE.lit (s : String) : RE := RE.seq (s.data.map RE.char)

def RE.litCI (s : String) : RE := RE.seq (s.data.map RE.charCI)

def RE.plus (r : RE) : RE := .cat r (.star r)

/-- JS `regex.test(s)`: the regex matches somewhere inside `s`. -/
def reTest (r : RE) (s : String) : Bool :=
  RE.matchList (.cat RE.anyc.star (.cat r RE.anyc.star)) s.data

-- ============================================================================
-- JSON.parse (ECMA-404 grammar, fuel-indexed recursive descent)
-- ============================================================================

/-- JSON insignificant whitespace (only these four characters). -/
def isJsonWs (c : Char) : Bool := c == ' ' || c == '\t' || c == '\n' || c == '\r'

def skipWs (l : List Char) : List Char := l.dropWhile isJsonWs

def hexVal (c : Char) : Option Nat :=
  if c.isDigit then some (c.toNat - 48)
  else if 'a' ≤ c ∧ c ≤ 'f' then some (c.toNat - 87)
  else if 'A' ≤ c ∧ c ≤ 'F' then some (c.toNat - 55)
  else none

/-- Body of a JSON string literal (after the opening quote), with escapes.
Surrogate-pair recombination of `\u` escapes is not modelled (Lean `Char`
is a Unicode scalar); an unpaired surrogate code is mapped to `Char.ofNat`'s
fallback.  No claim exercises this corner. -/
def jstrChars : Nat → List Char → Option (List Char × List Char)
  | 0, _ => none
  | _, [] => none
  | fuel+1, c :: rest =>
    if c == '"' then some ([], rest)
    else if c == '\\' then
      match rest with
      | [] => none
      | e :: rest2 =>
        if e == 'u' then
          match rest2 with
          | h1 :: h2 :: h3 :: h4 :: rest3 =>
            match hexVal h1, hexVal h2, hexVal h3, hexVal h4 with
            | some a, some b, some c2, some d =>
              let code := ((a * 16 + b) * 16 + c2) * 16 + d
              (jstrChars fuel rest3).map fun r => (Char.ofNat code :: r.1, r.2)
            | _, _, _, _ => none
          | _ => none
        else
          let ec : Option Char :=
            if e == '"' then some '"'
            else if e == '\\' then some '\\'
            else if e == '/' then some '/'
            else if e == 'b' then some (Char.ofNat 8)
            else if e == 'f' then some (Char.ofNat 12)
            else if e == 'n' then some '\n'
            else if e == 'r' then some '\r'
            else if e == 't' then some '\t'
            else none
          match ec with
          | some ch => (jstrChars fuel rest2).map fun r => (ch :: r.1, r.2)
          | none => none
    else if c.toNat < 0x20 then none
    else (jstrChars fuel rest).map fun r => (c :: r.1, r.2)

def digitsToNat (l : List Char) : Nat := l.foldl (fun a c => a * 10 + (c.toNat - 48)) 0

/-- Exact value of a decimal scientific literal: `m · 10^e`. -/
def sciValue (m : Int) (e : Int) : Dec := Dec.make m e

/-- JSON number literal: `-? (0 | [1-9][0-9]*) ('.' [0-9]+)? ([eE][+-]?[0-9]+)?`. -/
def parseJNumber (l : List Char) : Option (Dec × List Char) :=
  let sl : Int × List Char :=
    match l with
    | c :: r => if c == '-' then (-1, r) else (1, l)
    | [] => (1, l)
  let sgn := sl.1
  let l1 := sl.2
  let ipart : Option (Nat × List Char) :=
    match l1 with
    | c :: r =>
      if c == '0' then some (0, r)
      else if c.isDigit then
        let ds := l1.takeWhile Char.isDigit
        some (digitsToNat ds, l1.drop ds.length)
      else none
    | [] => none
  match ipart with
  | none => none
  | some (ip, l2) =>
    let fr : Option (List Char × List Char) :=
      match l2 with
      | c :: r =>
        if c == '.' then
          let ds := r.takeWhile Char.isDigit
          if ds.isEmpty then none else some (ds, r.drop ds.length)
        else some ([], l2)
      | [] => some ([], l2)
    match fr with
    | none => none
    | some (fdigits, l3) =>
      let ex : Option (Int × List Char) :=
        match l3 with
        | c :: r =>
          if c == 'e' || c == 'E' then
            let sr : Int × List Char :=
              match r with
              | d :: r2 => if d == '+' then (1, r2) else if d == '-' then (-1, r2) else (1, r)
              | [] => (1, r)
            let ds := sr.2.takeWhile Char.isDigit
            if ds.isEmpty then none
            else some (sr.1 * (digitsToNat ds : Int), sr.2.drop ds.length)
          else some (0, l3)
        | [] => some (0, l3)
      match ex with
      | none => none
      | some (e, l4) =>
        let mantissa : Int := sgn * ((ip * 10 ^ fdigits.length + digitsToNat fdigits : Nat) : Int)
        some (sciValue mantissa (e - fdigits.length), l4)

def expectLit (s : List Char) (l : List Char) : Option (List Char) :=
  if l.take s.length = s then some (l.drop s.length) else none

/-- JS property assignment on an association-list object: overwrite in place
if the key exists, else append. -/
def setField : JsObj → String → JsValue → JsObj
  | [], k, v => [(k, v)]
  | (k0, v0) :: rest, k, v =>
    if k0 = k then (k0, v) :: rest else (k0, v0) :: setField rest k v

def getField : JsObj → String → Option JsValue
  | [], _ => none
  | (k0, v0) :: rest, k => if k0 = k then some v0 else getField rest k

mutual

def parseVal : Nat → List Char → Option (JsValue × List Char)
  | 0, _ => none
  | fuel+1, l =>
    match skipWs l with
    | [] => none
    | c :: rest =>
      if c == 'n' then (expectLit [ 'u', 'l', 'l'] rest).map fun r => (.null, r)
      else if c == 't' then (expectLit [ 'r', 'u', 'e'] rest).map fun r => (.bool true, r)
      else if c == 'f' then (expectLit [ 'a', 'l', 's', 'e'] rest).map fun r => (.bool false, r)
      else if c == '"' then
        (jstrChars (rest.length + 1) rest).map fun r => (.str ⟨r.1⟩, r.2)
      else if c == '[' then
        match skipWs rest with
        | ']' :: r => some (.arr [], r)
        | l2 => parseArrItems fuel l2 []
      else if c == '{' then
        match skipWs rest with
        | '}' :: r => some (.obj [], r)
        | l2 => parseObjItems fuel l2 []
      else if c == '-' || c.isDigit then
        (parseJNumber (c :: rest)).map fun r => (.num (.val r.1), r.2)
      else none

def parseArrItems : Nat → List Char → List JsValue → Option (JsValue × List Char)
  | 0, _, _ => none
  | fuel+1, l, acc =>
    match parseVal fuel l with
    | none => none
    | some (v, r) =>
      match skipWs r with
      | ',' :: r2 => parseArrItems fuel r2 (acc ++ [v])
      | ']' :: r2 => some (.arr (acc ++ [v]), r2)
      | _ => none

def parseObjItems : Nat → List Char → List (String × JsValue) → Option (JsValue × List Char)
  | 0, _, _ => none
  | fuel+1, l, acc =>
    match skipWs l with
    | '"' :: r =>
      match jstrChars (r.length + 1) r with
      | none => none
      | some (kcs, r2) =>
        match skipWs r2 with
        | ':' :: r3 =>
          match parseVal fuel r3 with
          | none => none
          | some (v, r4) =>
            let acc2 := setField acc ⟨kcs⟩ v
            match skipWs r4 with
            | ',' :: r5 => parseObjItems fuel r5 acc2
            | '}' :: r5 => some (.obj acc2, r5)
            | _ => none
        | _ => none
    | _ => none

end

/-- Strict `JSON.parse`: parse one value, then only trailing whitespace may
remain.  The fuel `2·(|s|+1)` strictly dominates the recursion depth of any
parse (every two fuel units consume at least one input character). -/
def jsonParse (s : String) : Option JsValue :=
  match parseVal (2 * (s.data.length + 1)) s.data with
  | some (v, r) => if skipWs r = [] then some v else none
  | none => none

-- ============================================================================
-- tryParseJson (source lines 49-80): strict parse, then three regex fixups
-- ============================================================================

def isIdentStart (c : Char) : Bool := c.isAlpha || c == '_'

def isIdentChar (c : Char) : Bool := c.isAlpha || c.isDigit || c == '_'

/-- Match the tail of `/(\{|\,)\s*([a-zA-Z_][a-zA-Z0-9_]*)\s*:/` just after
the brace/comma: optional whitespace, an identifier, optional whitespace,
then a colon.  Returns the identifier and the input after the colon.  All
three character classes are pairwise disjoint, so the JS regex engine's
greedy backtracking search is deterministic here. -/
def matchKeyAt (l : List Char) : Option (List Char × List Char) :=
  match l.dropWhile jsWhitespace with
  | c :: r2 =>
    if isIdentStart c then
      let idRest := r2.takeWhile isIdentChar
      match (r2.dropWhile isIdentChar).dropWhile jsWhitespace with
      | ':' :: r5 => some (c :: idRest, r5)
      | _ => none
    else none
  | [] => none

/-- Global replace of `/(\{|\,)\s*([a-zA-Z_][a-zA-Z0-9_]*)\s*:/` by
`'$1"$2":'`: left-to-right scan, non-overlapping, resuming after each
match, exactly as `String.prototype.replace` with the `g` flag.  Fuel is
one per character examined, so `|l| + 1` never runs out. -/
def fixKeysGo : Nat → List Char → List Char
  | 0, l => l
  | _, [] => []
  | fuel+1, c :: rest =>
    if c == '{' || c == ',' then
      match matchKeyAt rest with
      | some (id, r2) => c :: '"' :: (id ++ '"' :: ':' :: fixKeysGo fuel r2)
      | none => c :: fixKeysGo fuel rest
    else c :: fixKeysGo fuel rest

/-- Fix unquoted keys: `{key: value}` becomes `{"key": value}`. -/
def fixBareKeys (s : String) : String := ⟨fixKeysGo (s.data.length + 1) s.data⟩

/-- Fix single quotes: global replace of `'` by `"`. -/
def fixSingleQuotes (s : String) : String :=
  ⟨s.data.map fun c => if c == sqc then '"' else c⟩

/-- Global replace of `/,\s*([\}\]])/` by `'$1'`: drop a comma (and the
whitespace after it) that directly precedes a closing brace or bracket. -/
def fixCommasGo : Nat → List Char → List Char
  | 0, l => l
  | _, [] => []
  | fuel+1, c :: rest =>
    if c == ',' then
      match rest.dropWhile jsWhitespace with
      | b :: r2 =>
        if b == '}' || b == ']' then b :: fixCommasGo fuel r2
        else c :: fixCommasGo fuel rest
      | [] => c :: fixCommasGo fuel rest
    else c :: fixCommasGo fuel rest

def fixTrailingCommas (s : String) : String := ⟨fixCommasGo (s.data.length + 1) s.data⟩

/-- Source `tryParseJson` (lines 49-80).  A non-string passes through with
`success = true` (the source's second `typeof value === "object"` test is
unreachable and has no effect).  A string is parsed strictly; on failure the
three fixups are applied in sequence and strict parse is retried once; on a
second failure the original string comes back with `success = false`.  The
function is total, hence never throws. -/
def tryParseJson (value : JsValue) : JsValue × Bool :=
  match value with
  | .str s =>
    match jsonParse s with
    | some j => (j, true)
    | none =>
      match jsonParse (fixTrailingCommas (fixSingleQuotes (fixBareKeys s))) with
      | some j => (j, true)
      | none => (.str s, false)
  | v => (v, true)

-- ============================================================================
-- JS conversions used by coerceValue
-- ============================================================================

/-- Digit string of a natural number. -/
def natDec (n : Nat) : String := toString n

/-- Plain decimal rendering of a canonical decimal, matching JS number
printing in the plain-notation range (JS switches to exponent notation
only beyond `1e21` / below `1e-6`; no claim involves such values). -/
def Dec.render (d : Dec) : String :=
  if d.m = 0 then "0"
  else
    let sign := if d.m < 0 then "-" else ""
    let digits := natDec d.m.natAbs
    if 0 ≤ d.e then
      sign ++ digits ++ String.mk (List.replicate d.e.toNat '0')
    else
      let k := (-d.e).toNat
      let padded :=
        if digits.length ≤ k then
          String.mk (List.replicate (k + 1 - digits.length) '0') ++ digits
        else digits
      let cut := padded.length - k
      sign ++ String.mk (padded.data.take cut) ++ "." ++ String.mk (padded.data.drop cut)

/-- JS `String(number)`. -/
def jsNumToString : JsNum → String
  | .posInf => "Infinity"
  | .negInf => "-Infinity"
  | .val d => d.render

mutual

/-- JS `String(value)` for the values the validator can see.  An array
stringifies as its elements joined by commas (`Array.prototype.toString`),
a plain object as `"[object Object]"`. -/
def jsToString : JsValue → String
  | .null => "null"
  | .bool true => "true"
  | .bool false => "false"
  | .num n => jsNumToString n
  | .str s => s
  | .arr xs => String.intercalate "," (jsArrElems xs)
  | .obj _ => "[object Object]"

def jsArrElems : List JsValue → List String
  | [] => []
  | x :: xs =>
    (match x with
     | .null => ""
     | v => jsToString v) :: jsArrElems xs

end

/-- Leading/trailing JS whitespace removal (`String.prototype.trim`). -/
def jsTrim (s : String) : String :=
  ⟨((s.data.dropWhile jsWhitespace).reverse.dropWhile jsWhitespace).reverse⟩

/-- JS `Number(string)` (`StringToNumber`): trims whitespace; an empty
remainder is `0`; `0x`/`0o`/`0b` integer literals; otherwise a signed
decimal literal or `Infinity`.  `none` is NaN. -/
def jsNumber (s : String) : Option JsNum :=
  let t := (jsTrim s).data
  match t with
  | [] => some (.val ⟨0, 0⟩)
  | '0' :: x :: rest =>
    if x == 'x' || x == 'X' then jsRadix 16 rest
    else if x == 'o' || x == 'O' then jsRadix 8 rest
    else if x == 'b' || x == 'B' then jsRadix 2 rest
    else jsDecimal t
  | _ => jsDecimal t
where
  /-- Non-decimal integer literal body in the given radix. -/
  jsRadix (radix : Nat) (l : List Char) : Option JsNum :=
    let ds := l.takeWhile fun c => (hexVal c).any (· < radix)
    if ds.isEmpty || !(l.drop ds.length).isEmpty then none
    else some (.val (Dec.make ((ds.foldl (fun a c => a * radix + (hexVal c).getD 0) 0 : Nat) : Int) 0))
  /-- Signed `StrDecimalLiteral`: `Infinity`, `digits [. digits?] [exp]`, or
  `. digits [exp]`. -/
  jsDecimal (l : List Char) : Option JsNum :=
    let sl : Int × List Char :=
      match l with
      | c :: r => if c == '-' then (-1, r) else if c == '+' then (1, r) else (1, l)
      | [] => (1, l)
    let sgn := sl.1
    let b := sl.2
    if b = [ 'I', 'n', 'f', 'i', 'n', 'i', 't', 'y'] then
      some (if sgn = 1 then .posInf else .negInf)
    else
      let ids := b.takeWhile Char.isDigit
      let b1 := b.drop ids.length
      let fro : Option (List Char × List Char) :=
        match b1 with
        | '.' :: r =>
          let fds := r.takeWhile Char.isDigit
          if ids.isEmpty && fds.isEmpty then none
          else some (fds, r.drop fds.length)
        | _ => if ids.isEmpty then none else some ([], b1)
      match fro with
      | none => none
      | some (fds, b2) =>
        let exo : Option (Int × List Char) :=
          match b2 with
          | c :: r =>
            if c == 'e' || c == 'E' then
              let sr : Int × List Char :=
                match r with
                | d :: r2 => if d == '+' then (1, r2) else if d == '-' then (-1, r2) else (1, r)
                | [] => (1, r)
              let eds := sr.2.takeWhile Char.isDigit
              if eds.isEmpty then none
              else some (sr.1 * (digitsToNat eds : Int), sr.2.drop eds.length)
            else some (0, b2)
          | [] => some (0, b2)
        match exo with
        | none => none
        | some (e, b3) =>
          if b3.isEmpty then
            let mantissa : Int :=
              sgn * ((digitsToNat ids * 10 ^ fds.length + digitsToNat fds : Nat) : Int)
            some (.val (sciValue mantissa (e - fds.length)))
          else none

/-- JS strict inequality `value !== 0` on a number (`+0` and `-0` are equal
under `!==`, and our rationals have a single zero). -/
def jsNumNonzero : JsNum → Bool
  | .val d => d.m ≠ 0
  | _ => true

/-- JS `string.split(",")` followed by `trim` on each piece (the source's
`value.split(",").map((s) => s.trim())`). -/
def splitTrim (s : String) : List String :=
  ((splitOnChar ',' s.data).map (fun l => (⟨l⟩ : String))).map jsTrim

-- ============================================================================
-- coerceValue (source lines 85-152)
-- ============================================================================

/-- Source `coerceValue`: best-effort conversion of `value` to the declared
`expectedType`, returning the (possibly unchanged) value and whether a
coercion happened. -/
def coerceValue (value : JsValue) (expectedType : String) : JsValue × Bool :=
  match value with
  | .null => (value, false)
  | _ =>
    if expectedType = "string" then
      match value with
      | .str _ => (value, false)
      | v => (.str (jsToString v), true)
    else if expectedType = "number" ∨ expectedType = "integer" then
      match value with
      | .str s =>
        match jsNumber s with
        | some n => (.num n, true)
        | none => (value, false)
      | _ => (value, false)
    else if expectedType = "boolean" then
      match value with
      | .str s =>
        let lower := strToLower s
        if lower = "true" ∨ lower = "1" ∨ lower = "yes" then (.bool true, true)
        else if lower = "false" ∨ lower = "0" ∨ lower = "no" then (.bool false, true)
        else (value, false)
      | .num n => (.bool (jsNumNonzero n), true)
      | _ => (value, false)
  else if expectedType = "array" then
      match value with
      | .str s =>
        match tryParseJson (.str s) with
        | (.arr xs, true) => (.arr xs, true)
        | _ =>
          if strContains s ',' then (.arr ((splitTrim s).map .str), true)
          else (.arr [ .str s], true)
      | _ => (value, false)
    else if expectedType = "object" then
      match value with
      | .str s =>
        match tryParseJson (.str s) with
        | (.obj fs, true) => (.obj fs, true)
        | (.arr xs, true) => (.arr xs, true)
        | _ => (value, false)
      | _ => (value, false)
    else (value, false)

-- ============================================================================
-- levenshteinDistance (source lines 194-220): row-by-row dynamic programming
-- ============================================================================

/-- One inner-loop pass of the source's DP (row `i`, columns `j ≥ 1`).
Arguments: the row-`i` character `bc` of `b`, the remaining characters of
`a`, `diag = matrix[i-1][j-1]`, `left = matrix[i][j-1]`, and the previous
row from index `j` on (so its head is `up = matrix[i-1][j]`).  The source's
`Math.min(m[i-1][j-1]+1, m[i][j-1]+1, m[i-1][j]+1)` is transcribed in the
same operand order. -/
def levRowAux (bc : Char) : List Char → Nat → Nat → List Nat → List Nat
  | [], _, _, _ => []
  | ac :: as, diag, left, prev =>
    let up := prev.headD 0
    let cur := if ac = bc then diag
               else Nat.min (Nat.min (diag + 1) (left + 1)) (up + 1)
    cur :: levRowAux bc as up cur (prev.tailD [])

/-- Row `i` of the matrix from row `i-1`: the source initialises
`matrix[i] = [i]` (equivalently `prev[0] + 1`) and then fills columns
`1..a.length`. -/
def levRow (a : List Char) (prev : List Nat) (bc : Char) : List Nat :=
  let h := prev.headD 0
  (h + 1) :: levRowAux bc a h (h + 1) (prev.tailD [])

/-- Source `levenshteinDistance`: row 0 is `[0, 1, ..., a.length]`; each
character of `b` produces the next row; the answer is
`matrix[b.length][a.length]`, the last entry of the final row. -/
def levenshteinDistance (a b : String) : Nat :=
  (b.data.foldl (levRow a.data) (List.range (a.data.length + 1))).getLastD 0

-- ============================================================================
-- findClosestToolName (source lines 157-192)
-- ============================================================================

/-- Result of `findClosestToolName`; `distance` is a JS number that starts
at `Infinity`, modelled by `WithTop ℕ`. -/
structure FindResult where
  matched : Option String
  distance : WithTop ℕ
  deriving DecidableEq, Repr

/-- Outcome of the candidate loop: either an early return on a
case-insensitive exact match, or the best candidate with the minimum
distance seen. -/
inductive ScanOut where
  | exact (tool : String)
  | best (closest : Option String) (minDistance : WithTop ℕ)
  deriving DecidableEq, Repr

/-- The source's `for (const tool of availableTools)` loop: short-circuit on
a case-insensitive match, otherwise keep the first candidate attaining the
strictly smallest Levenshtein distance between the lowercased strings. -/
def scanTools (inputLower : String) : Option String → WithTop ℕ → List String → ScanOut
  | closest, minD, [] => .best closest minD
  | closest, minD, t :: ts =>
    if inputLower = strToLower t then .exact t
    else
      let d : WithTop ℕ := (levenshteinDistance inputLower (strToLower t) : ℕ)
      if d < minD then scanTools inputLower (some t) d ts
      else scanTools inputLower closest minD ts

/-- The source's 30%-of-candidate-length threshold
`Math.ceil(closest.length * 0.3)`.  As naturals this is `⌈3·len/10⌉`; the
JS double computation rounds to exactly this value for every string length
(the relative error of the product is below `2⁻⁵²`, far too small to move
it across an integer or change the ceiling). -/
def fuzzyThreshold (len : Nat) : Nat := (3 * len + 9) / 10

/-- Source `findClosestToolName`: verbatim membership short-circuits with
distance 0; then the loop; a best candidate is suggested only when its
distance is within the threshold, otherwise `null` is reported together
with the true minimum distance. -/
def findClosestToolName (input : String) (availableTools : List String) : FindResult :=
  if availableTools.contains input then ⟨some input, 0⟩
  else
    match scanTools (strToLower input) none ⊤ availableTools with
    | .exact t => ⟨some t, 0⟩
    | .best (some c) minD =>
      if minD ≤ (fuzzyThreshold c.length : ℕ) then ⟨some c, minD⟩
      else ⟨none, minD⟩
    | .best none minD => ⟨none, minD⟩

-- ============================================================================
-- checkDangerousCall (source lines 225-256)
-- ============================================================================

/-- One danger pattern: the regex and its JS display form (the string that
`${regex}` interpolates into the block reason). -/
structure DangerPat where
  re : RE
  display : String

/-- One rule of the danger table: a tool-name filter (`"*"` is the
wildcard), the argument key to inspect, and the patterns. -/
structure DangerRule where
  tool : String
  param : String
  patterns : List DangerPat

/-- Pattern `/;\s*rm\s+-rf/`. -/
def reRmRf : RE :=
  RE.seq [RE.char ';', RE.ws.star, RE.lit "rm", RE.plus RE.ws, RE.lit "-rf"]

/-- Pattern `/&&\s*curl.*\|.*sh/`. -/
def reCurlSh : RE :=
  RE.seq [RE.lit "&&", RE.ws.star, RE.lit "curl", RE.dot.star, RE.char '|',
          RE.dot.star, RE.lit "sh"]

/-- Pattern `/\.\.\//`. -/
def reDotDot : RE := RE.lit "../"

/-- Pattern `/;\s*DROP\s+TABLE/i`. -/
def reDropTable : RE :=
  RE.seq [RE.char ';', RE.ws.star, RE.litCI "DROP", RE.plus RE.ws, RE.litCI "TABLE"]

/-- Pattern `/'\s*OR\s+'1'\s*=\s*'1/i`. -/
def reSqlOr : RE :=
  RE.seq [RE.char sqc, RE.ws.star, RE.litCI "OR", RE.plus RE.ws, RE.char sqc,
          RE.char '1', RE.char sqc, RE.ws.star, RE.char '=', RE.ws.star,
          RE.char sqc, RE.char '1']

/-- JS display of `/'\s*OR\s+'1'\s*=\s*'1/i`. -/
def sqlOrDisplay : String :=
  "/" ++ String.singleton sqc ++ "\\s*OR\\s+" ++ String.singleton sqc ++ "1" ++
  String.singleton sqc ++ "\\s*=\\s*" ++ String.singleton sqc ++ "1/i"

/-- The source's fixed `dangerousPatterns` table. -/
def dangerousPatterns : List DangerRule :=
  [⟨"bash", "command", [⟨reRmRf, "/;\\s*rm\\s+-rf/"⟩, ⟨reCurlSh, "/&&\\s*curl.*\\|.*sh/"⟩]⟩,
   ⟨"*", "path", [⟨reDotDot, "/\\.\\.\\//"⟩]⟩,
   ⟨"*", "file", [⟨reDotDot, "/\\.\\.\\//"⟩]⟩,
   ⟨"*", "query", [⟨reDropTable, "/;\\s*DROP\\s+TABLE/i"⟩, ⟨reSqlOr, sqlOrDisplay⟩]⟩]

/-- Result of the danger scanner. -/
structure DangerResult where
  dangerous : Bool
  reason : Option String := none
  deriving DecidableEq, Repr

/-- The reason message the source builds on a hit. -/
def dangerMessage (param : String) (display : String) : String :=
  "Potentially dangerous pattern detected in " ++ param ++ ": " ++ display

/-- Inner loop over one rule's patterns: first hit wins. -/
def scanPatterns (param : String) (s : String) : List DangerPat → Option String
  | [] => none
  | p :: ps =>
    if reTest p.re s then some (dangerMessage param p.display)
    else scanPatterns param s ps

/-- Outer loop over the rules: skip rules whose tool filter does not match,
skip rules whose argument value is not a string, stop at the first pattern
hit. -/
def dangerScan (toolName : String) (params : JsObj) : List DangerRule → DangerResult
  | [] => ⟨false, none⟩
  | r :: rs =>
    if r.tool ≠ "*" ∧ r.tool ≠ toolName then dangerScan toolName params rs
    else
      match getField params r.param with
      | some (.str s) =>
        match scanPatterns r.param s r.patterns with
        | some reason => ⟨true, some reason⟩
        | none => dangerScan toolName params rs
      | _ => dangerScan toolName params rs

/-- Source `checkDangerousCall`. -/
def checkDangerousCall (toolName : String) (params : JsObj) : DangerResult :=
  dangerScan toolName params dangerousPatterns

-- ============================================================================
-- Config, schema and verdict types
-- ============================================================================

/-- Source `RepairStrategy`. -/
inductive RepairStrategy where
  | coerce
  | default
  | prompt
  | block
  deriving DecidableEq, Repr

/-- Source `PluginConfig`: every field optional (`none` is JS `undefined`).
`maxFuzzyMatchDistance` is a JS number, integral in all uses. -/
structure PluginConfig where
  enabled : Option Bool := none
  repairStrategy : Option RepairStrategy := none
  blockOnValidationFailure : Option Bool := none
  blockDangerousCalls : Option Bool := none
  allowToolNameFuzzyMatch : Option Bool := none
  maxFuzzyMatchDistance : Option Nat := none
  logValidationErrors : Option Bool := none
  strictMode : Option Bool := none
  deriving Repr

/-- Parameter schema as the repair loop reads it: the `properties` record,
each property possibly declaring a `type` string.  The schema is otherwise
opaque data handed to the external TypeBox checker. -/
structure TSchema where
  properties : List (String × Option String)

/-- Source `ToolSchema`. -/
structure ToolSchema where
  name : String
  parameters : Option TSchema := none
  required : Option (List String) := none

/-- Source `ValidationResult`. -/
structure ValidationResult where
  valid : Bool
  errors : List String
  repaired : Option JsObj := none
  blocked : Bool := false
  blockReason : Option String := none

/-- External TypeBox `Value.Check`: opaque to this repository, passed as a
parameter. -/
abbrev CheckFn := TSchema → JsObj → Bool

/-- External TypeBox `Value.Errors`, as `(path, message)` pairs; the engine
formats each as `path ++ ": " ++ message`. -/
abbrev ErrFn := TSchema → JsObj → List (String × String)

def fmtErrors (l : List (String × String)) : List String :=
  l.map fun e => e.1 ++ ": " ++ e.2

-- ============================================================================
-- validateToolCall (source lines 335-415)
-- ============================================================================

/-- The final `return` of `validateToolCall` (after the danger check):
`valid` is `errors.length === 0`; `blocked`/`blockReason` are set exactly
when validation failed and `blockOnValidationFailure` is truthy. -/
def mkVerdict (cfg : PluginConfig) (errors : List String) (repaired : Option JsObj) :
    ValidationResult :=
  let blocked := !errors.isEmpty && cfg.blockOnValidationFailure.getD false
  { valid := errors.isEmpty
    errors := errors
    repaired := repaired
    blocked := blocked
    blockReason :=
      if blocked then some ("Validation failed: " ++ String.intercalate ", " errors)
      else none }

/-- The repair loop of the coerce strategy: a working copy of the arguments
is coerced property by property (only properties with a declared type whose
value is present), recording whether any field actually changed.  Later
properties see the updates of earlier ones, as in the source. -/
def coerceParams (props : List (String × Option String)) (params : JsObj) : JsObj × Bool :=
  props.foldl
    (fun acc kv =>
      match kv.2 with
      | some t =>
        if t ≠ "" then
          match getField acc.1 kv.1 with
          | some v =>
            let r := coerceValue v t
            if r.2 then (setField acc.1 kv.1 r.1, true) else acc
          | none => acc
        else acc
      | none => acc)
    (params, false)

/-- The schema-validation-and-repair block of the source (the
`if (schema?.parameters)` body through the final `return`), as a function
of the optional parameter schema. -/
def validateSchema (check : CheckFn) (errf : ErrFn) (cfg : PluginConfig)
    (params : JsObj) : Option TSchema → ValidationResult
  | some ts =>
    if check ts params then mkVerdict cfg [] none
    else
      let errors := fmtErrors (errf ts params)
      if cfg.repairStrategy = some .coerce ∨ cfg.repairStrategy = none then
        let rc := coerceParams ts.properties params
        if rc.2 && check ts rc.1 then mkVerdict cfg [] (some rc.1)
        else mkVerdict cfg errors none
      else mkVerdict cfg errors none
  | none => mkVerdict cfg [] none

/-- Source `validateToolCall` (lines 335-415).  The danger check runs first
when `blockDangerousCalls !== false` and short-circuits with a blocking
verdict; otherwise the schema block decides. -/
def validateToolCall (check : CheckFn) (errf : ErrFn) (cfg : PluginConfig)
    (toolName : String) (params : JsObj) (schema : Option ToolSchema) :
    ValidationResult :=
  if cfg.blockDangerousCalls ≠ some false ∧
     (checkDangerousCall toolName params).dangerous = true then
    let danger := checkDangerousCall toolName params
    { valid := false
      errors := [danger.reason.getD "Dangerous call detected"]
      repaired := none
      blocked := true
      blockReason := danger.reason }
  else validateSchema check errf cfg params (schema.bind ToolSchema.parameters)

-- ============================================================================
-- The before_tool_call hook (source lines 421-490) and statistics
-- ============================================================================

/-- Source `stats` object. -/
structure Stats where
  validated : Nat
  repaired : Nat
  blocked : Nat
  errors : Nat
  deriving DecidableEq, Repr

/-- What the hook handler returns to the host: block the call, substitute
repaired parameters, or (`none`) proceed with the original arguments. -/
inductive HookResult where
  | block (blockReason : Option String)
  | withParams (params : JsObj)

/-- The handler body after `const result = validateToolCall(...)` (source
lines 449-487): a blocked verdict bumps the blocked counter and blocks; an
invalid verdict bumps the error counter, then either substitutes repaired
parameters (bumping the repaired counter), blocks under strict mode, or
falls through; a valid verdict falls through. -/
def handlerReact (cfg : PluginConfig) (stats : Stats) (result : ValidationResult) :
    Stats × Option HookResult :=
  if result.blocked then
    ({ stats with blocked := stats.blocked + 1 }, some (.block result.blockReason))
  else if result.valid = false then
    let stats1 := { stats with errors := stats.errors + 1 }
    match result.repaired with
    | some rep => ({ stats1 with repaired := stats1.repaired + 1 }, some (.withParams rep))
    | none =>
      if cfg.strictMode.getD false then
        (stats1,
         some (.block (some ("Validation failed: " ++
           String.intercalate ", " result.errors))))
      else (stats1, none)
  else (stats, none)

/-- Source `before_tool_call` handler (lines 421-490): every invocation
bumps the validated counter; the fuzzy-match block only logs, so its value
is computed and discarded; then `validateToolCall` is invoked WITHOUT a
schema argument and the result drives the reaction. -/
def handleBeforeToolCall (check : CheckFn) (errf : ErrFn) (cfg : PluginConfig)
    (availableTools : List String) (stats : Stats)
    (toolName : String) (params : JsObj) : Stats × Option HookResult :=
  let stats0 := { stats with validated := stats.validated + 1 }
  let _fuzzy :=
    if cfg.allowToolNameFuzzyMatch ≠ some false ∧ availableTools.length > 0 then
      some (findClosestToolName toolName availableTools)
    else none
  handlerReact cfg stats0 (validateToolCall check errf cfg toolName params none)

-- ============================================================================
-- Reference edit distance and correctness of the DP implementation
-- ============================================================================

/-- Textbook Levenshtein distance, recursing on the leading characters. -/
def levRec : List Char → List Char → Nat
  | [], b => b.length
  | x :: xs, [] => (x :: xs).length
  | x :: xs, y :: ys =>
    if x = y then levRec xs ys
    else 1 + Nat.min (levRec xs ys) (Nat.min (levRec (x :: xs) ys) (levRec xs (y :: ys)))
termination_by a b => a.length + b.length
decreasing_by all_goals (simp only [List.length_cons]; omega)

theorem levRec_self (a : List Char) : levRec a a = 0 := by
  induction a with
  | nil => simp [levRec]
  | cons x xs ih => simp [levRec, ih]

theorem levRec_comm (a : List Char) : ∀ b, levRec a b = levRec b a := by
  induction a with
  | nil => intro b; cases b <;> simp [levRec]
  | cons x xs ihx =>
    intro b
    induction b with
    | nil => simp [levRec]
    | cons y ys ihy =>
      by_cases hxy : x = y
      · subst hxy; simp [levRec, ihx ys]
      · have h1 := ihx ys
        have h2 := ihx (y :: ys)
        have h3 := ihy
        simp only [levRec, if_neg hxy, if_neg (Ne.symm hxy), Nat.min_def]
        split_ifs <;> omega

/-- Specification of the DP rows.  `p` is the reversed prefix of `b`
already processed, `pr` the reversed prefix of `a` already filled into the
row; the entries are the distances between successive reversed `a`-prefixes
and `p`. -/
def rowAuxSpec (p : List Char) : List Char → List Char → List Nat
  | _, [] => []
  | pr, x :: as => levRec (x :: pr) p :: rowAuxSpec p (x :: pr) as

/-- The full DP row for the processed (reversed) prefix `p` of `b`. -/
def rowSpec (p a : List Char) : List Nat := levRec [] p :: rowAuxSpec p [] a

theorem levRowAux_spec (c : Char) (p : List Char) :
    ∀ (as pr : List Char),
      levRowAux c as (levRec pr p) (levRec pr (c :: p)) (rowAuxSpec p pr as) =
        rowAuxSpec (c :: p) pr as := by
  intro as
  induction as with
  | nil => intro pr; simp [levRowAux, rowAuxSpec]
  | cons x as ih =>
    intro pr
    simp only [rowAuxSpec, levRowAux, List.headD_cons, List.tailD_cons]
    have hcur :
        (if x = c then levRec pr p
         else Nat.min (Nat.min (levRec pr p + 1) (levRec pr (c :: p) + 1))
           (levRec (x :: pr) p + 1)) =
          levRec (x :: pr) (c :: p) := by
      by_cases hxc : x = c
      · subst hxc; simp [levRec]
      · simp only [levRec, if_neg hxc, Nat.min_def]
        split_ifs <;> omega
    rw [hcur]
    exact congrArg (levRec (x :: pr) (c :: p) :: ·) (ih (x :: pr))

theorem levRow_spec (a p : List Char) (c : Char) :
    levRow a (rowSpec p a) c = rowSpec (c :: p) a := by
  simp only [levRow, rowSpec, List.headD_cons, List.tailD_cons]
  have h0 : levRec [] p + 1 = levRec [] (c :: p) := by simp [levRec]
  rw [h0, levRowAux_spec c p a []]

theorem foldl_levRow_spec (a : List Char) :
    ∀ (bs p : List Char), bs.foldl (levRow a) (rowSpec p a) = rowSpec (bs.reverse ++ p) a := by
  intro bs
  induction bs with
  | nil => intro p; simp
  | cons c bs ih =>
    intro p
    simp only [List.foldl_cons, levRow_spec, ih (c :: p), List.reverse_cons,
      List.append_assoc, List.singleton_append]

theorem rowAuxSpec_nil (as : List Char) :
    ∀ pr, rowAuxSpec [] pr as = List.range' (pr.length + 1) as.length := by
  induction as with
  | nil => intro pr; simp [rowAuxSpec]
  | cons x as ih =>
    intro pr
    simp [rowAuxSpec, levRec, ih (x :: pr), List.range'_succ]

theorem rowSpec_nil (a : List Char) : rowSpec [] a = List.range (a.length + 1) := by
  simp only [rowSpec, rowAuxSpec_nil, levRec, List.length_nil]
  rw [List.range_eq_range', List.range'_succ]

theorem rowAuxSpec_getLastD (p : List Char) :
    ∀ (as pr : List Char) (d : Nat), as ≠ [] →
      (rowAuxSpec p pr as).getLastD d = levRec (as.reverse ++ pr) p := by
  intro as
  induction as with
  | nil => intro pr d h; exact absurd rfl h
  | cons x as ih =>
    intro pr d _
    cases as with
    | nil => simp [rowAuxSpec]
    | cons y ys =>
      rw [show rowAuxSpec p pr (x :: y :: ys) =
            levRec (x :: pr) p :: rowAuxSpec p (x :: pr) (y :: ys) from rfl,
        List.getLastD_cons, ih (x :: pr) (levRec (x :: pr) p) (by simp)]
      simp

theorem rowSpec_getLastD (p a : List Char) :
    (rowSpec p a).getLastD 0 = levRec a.reverse p := by
  cases ha : a with
  | nil => simp [rowSpec, rowAuxSpec]
  | cons x as =>
    simp only [rowSpec]
    rw [List.getLastD_cons, rowAuxSpec_getLastD p (x :: as) [] _ (by simp)]
    simp

/-- The source's matrix DP computes the textbook edit distance of the
reversed strings (the matrix recurrence consumes prefixes from the right). -/
theorem levenshteinDistance_eq_levRec (a b : String) :
    levenshteinDistance a b = levRec a.data.reverse b.data.reverse := by
  unfold levenshteinDistance
  rw [← rowSpec_nil a.data, foldl_levRow_spec a.data b.data [], List.append_nil,
    rowSpec_getLastD]

-- ============================================================================
-- Concrete instances of the external validator, used to instantiate theorems
-- ============================================================================

/-- Does a value fit a declared primitive type?  (A concrete structural
checker in the style of the schema contract; stands in for the external
TypeBox validator when theorems are instantiated on concrete inputs.) -/
def typeMatches (v : JsValue) (t : String) : Bool :=
  if t = "string" then (match v with | .str _ => true | _ => false)
  else if t = "number" ∨ t = "integer" then (match v with | .num _ => true | _ => false)
  else if t = "boolean" then (match v with | .bool _ => true | _ => false)
  else if t = "array" then (match v with | .arr _ => true | _ => false)
  else if t = "object" then (match v with | .obj _ => true | _ => false)
  else true

/-- Concrete check function: every declared property present and of its
declared type. -/
def checkModel : CheckFn := fun ts obj =>
  ts.properties.all fun kv =>
    match getField obj kv.1, kv.2 with
    | some v, some t => typeMatches v t
    | some _, none => true
    | none, _ => false

/-- Concrete error reporter matching `checkModel`. -/
def errfModel : ErrFn := fun ts obj =>
  (ts.properties.filter fun kv =>
    match getField obj kv.1, kv.2 with
    | some v, some t => !typeMatches v t
    | some _, none => false
    | none, _ => true).map fun kv => ("/" ++ kv.1, "expected " ++ kv.2.getD "value")

/-- Default (empty) plugin configuration. -/
def cfgD : PluginConfig := {}

/-- Configuration with strict mode enabled. -/
def cfgStrict : PluginConfig := { strictMode := some true }

/-- Zeroed statistics. -/
def statsZero : Stats := ⟨0, 0, 0, 0⟩

-- ============================================================================
-- Claim theorems
-- ============================================================================

/-- C10: `levenshteinDistance` is symmetric, is zero on every pair of equal
strings, and the distance between "chroma_store" and "chroma_stor" is at
most 1. -/
theorem levenshteinDistance_symm_self_concrete :
    (∀ a b : String, levenshteinDistance a b = levenshteinDistance b a) ∧
    (∀ a : String, levenshteinDistance a a = 0) ∧
    levenshteinDistance "chroma_store" "chroma_stor" ≤ 1 := by
  refine ⟨fun a b => ?_, fun a => ?_, by decide⟩
  · rw [levenshteinDistance_eq_levRec, levenshteinDistance_eq_levRec, levRec_comm]
  · rw [levenshteinDistance_eq_levRec, levRec_self]

/-- C8: `tryParseJson` passes every non-string through unchanged with
success; a string gets one strict parse and, on failure, the three fixups
in sequence (quote bare identifier keys, replace single quotes, strip
trailing commas) followed by exactly one strict re-parse, the original
string coming back with `success = false` if that also fails; the function
is total, hence never throws; and the motivating example
`{name: 'bob', age: 30,}` parses to `{"name": "bob", "age": 30}`. -/
theorem tryParseJson_spec :
    (∀ v : JsValue, (∀ s, v ≠ .str s) → tryParseJson v = (v, true)) ∧
    (∀ s : String, tryParseJson (.str s) =
      match jsonParse s with
      | some j => (j, true)
      | none =>
        match jsonParse (fixTrailingCommas (fixSingleQuotes (fixBareKeys s))) with
        | some j => (j, true)
        | none => (.str s, false)) ∧
    tryParseJson (.str ("\x7bname: " ++ String.singleton sqc ++ "bob" ++
        String.singleton sqc ++ ", age: 30,\x7d")) =
      (.obj [("name", .str "bob"), ("age", .num (.val (Dec.make 30 0)))], true) := by
  refine ⟨fun v hv => ?_, fun s => rfl, rfl⟩
  cases v with
  | str s => exact absurd rfl (hv s)
  | null => rfl
  | bool b => rfl
  | num n => rfl
  | arr xs => rfl
  | obj fs => rfl

/-- Witness for C8: a concrete non-string input passes through unchanged. -/
theorem tryParseJson_spec_witness :
    tryParseJson (.num (.val (Dec.make 7 0))) = (.num (.val (Dec.make 7 0)), true) :=
  tryParseJson_spec.1 _ (fun _ h => JsValue.noConfusion h)

/-- C5: the per-declared-type coercion table of `coerceValue` for the
number/integer, boolean and array targets, with concrete instances. -/
theorem coerceValue_table :
    (∀ s : String, coerceValue (.str s) "number" =
      (match jsNumber s with
       | some n => (.num n, true)
       | none => (.str s, false))) ∧
    (∀ s : String, coerceValue (.str s) "integer" = coerceValue (.str s) "number") ∧
    (∀ s : String, coerceValue (.str s) "boolean" =
      (if strToLower s = "true" ∨ strToLower s = "1" ∨ strToLower s = "yes" then
        (.bool true, true)
       else if strToLower s = "false" ∨ strToLower s = "0" ∨ strToLower s = "no" then
        (.bool false, true)
       else (.str s, false))) ∧
    (∀ n : JsNum, coerceValue (.num n) "boolean" = (.bool (jsNumNonzero n), true)) ∧
    (∀ s : String, coerceValue (.str s) "array" =
      (match tryParseJson (.str s) with
       | (.arr xs, true) => (.arr xs, true)
       | _ =>
         if strContains s ',' then (.arr ((splitTrim s).map .str), true)
         else (.arr [ .str s], true))) ∧
    coerceValue (.str "5") "number" = (.num (.val (Dec.make 5 0)), true) ∧
    coerceValue (.str "abc") "number" = (.str "abc", false) ∧
    coerceValue (.str "YES") "boolean" = (.bool true, true) ∧
    coerceValue (.num (.val ⟨0, 0⟩)) "boolean" = (.bool false, true) ∧
    coerceValue (.str "a, b") "array" = (.arr [ .str "a", .str "b"], true) ∧
    coerceValue (.str "[1, 2]") "array" =
      (.arr [ .num (.val (Dec.make 1 0)), .num (.val (Dec.make 2 0))], true) :=
  ⟨fun _ => rfl, fun _ => rfl, fun _ => rfl, fun _ => rfl, fun _ => rfl,
   rfl, rfl, rfl, rfl, rfl, rfl⟩

/-- Soundness of the candidate loop: a `best` outcome is bounded by every
candidate's distance and by the incoming minimum, and is either the
incoming pair or attained at some candidate in the pool. -/
theorem scanTools_best_spec (il : String) :
    ∀ (pool : List String) (cl : Option String) (md : WithTop ℕ)
      (c : Option String) (d : WithTop ℕ),
      scanTools il cl md pool = .best c d →
      (∀ t ∈ pool, d ≤ (levenshteinDistance il (strToLower t) : ℕ)) ∧ d ≤ md ∧
      (c = cl ∧ d = md ∨
        ∃ t ∈ pool, c = some t ∧ d = (levenshteinDistance il (strToLower t) : ℕ)) := by
  intro pool
  induction pool with
  | nil =>
    intro cl md c d h
    simp only [scanTools, ScanOut.best.injEq] at h
    exact ⟨by simp, le_of_eq h.2.symm, Or.inl ⟨h.1.symm, h.2.symm⟩⟩
  | cons t ts ih =>
    intro cl md c d h
    by_cases hex : il = strToLower t
    · simp [scanTools, hex] at h
    · simp only [scanTools, if_neg hex] at h
      by_cases hlt : ((levenshteinDistance il (strToLower t) : ℕ) : WithTop ℕ) < md
      · rw [if_pos hlt] at h
        obtain ⟨hall, hle, hor⟩ := ih _ _ _ _ h
        refine ⟨?_, le_trans hle (le_of_lt hlt), ?_⟩
        · intro u hu
          rcases List.mem_cons.mp hu with rfl | hu
          · exact hle
          · exact hall u hu
        · rcases hor with ⟨hc, hd⟩ | ⟨u, hu, hc, hd⟩
          · exact Or.inr ⟨t, by simp, hc, hd⟩
          · exact Or.inr ⟨u, by simp [hu], hc, hd⟩
      · rw [if_neg hlt] at h
        obtain ⟨hall, hle, hor⟩ := ih _ _ _ _ h
        refine ⟨?_, hle, ?_⟩
        · intro u hu
          rcases List.mem_cons.mp hu with rfl | hu
          · exact le_trans hle (le_of_not_lt hlt)
          · exact hall u hu
        · rcases hor with ⟨hc, hd⟩ | ⟨u, hu, hc, hd⟩
          · exact Or.inl ⟨hc, hd⟩
          · exact Or.inr ⟨u, by simp [hu], hc, hd⟩

/-- C9 counterexample: with candidate pool `["x"]` the best (only)
candidate "x" has length 1 and the input "y" is at Levenshtein distance 1,
yet the function returns the match "x" rather than `null`: the rounded-up
threshold `⌈1 · 0.3⌉` is 1, so distance 1 is tolerated, contradicting the
claim's "any distance ≥ 1 yields null". -/
theorem findClosest_len1_dist1_matches :
    findClosestToolName "y" [ "x"] = ⟨some "x", 1⟩ ∧
    levenshteinDistance "y" "x" = 1 ∧ "x".length = 1 := by
  refine ⟨by decide, by decide, by decide⟩

/-- C9 (amended): when the input is not in the pool and the loop ends with
best candidate `c` at distance `d` strictly above `⌈0.3 · |c|⌉`, the
function returns `match = none` while reporting `d`, which is the true
minimum distance over the pool (attained at `c`).  In particular a length-1
candidate tolerates distance 1 and rejects distance 2, and a length-10
candidate tolerates distance 3 and rejects distance 4. -/
theorem findClosest_threshold (input : String) (pool : List String) (c : String) (d : ℕ)
    (hmem : input ∉ pool)
    (hscan : scanTools (strToLower input) none ⊤ pool = .best (some c) (d : WithTop ℕ))
    (hthr : fuzzyThreshold c.length < d) :
    findClosestToolName input pool = ⟨none, (d : WithTop ℕ)⟩ ∧
    c ∈ pool ∧ d = levenshteinDistance (strToLower input) (strToLower c) ∧
    (∀ t ∈ pool, ((d : ℕ) : WithTop ℕ) ≤ (levenshteinDistance (strToLower input) (strToLower t) : ℕ)) ∧
    findClosestToolName "ab" [ "x"] = ⟨none, 2⟩ ∧
    findClosestToolName "abcdefg" [ "abcdefghij"] = ⟨some "abcdefghij", 3⟩ ∧
    findClosestToolName "abcdef" [ "abcdefghij"] = ⟨none, 4⟩ := by
  obtain ⟨hall, _, hor⟩ := scanTools_best_spec (strToLower input) pool none ⊤ _ _ hscan
  have hcontains : pool.contains input = false := by
    rw [List.contains_eq_any_beq]
    simp only [List.any_eq_false, beq_iff_eq]
    intro t ht he
    exact hmem (he ▸ ht)
  have hattain : c ∈ pool ∧ (d : WithTop ℕ) =
      (levenshteinDistance (strToLower input) (strToLower c) : ℕ) := by
    rcases hor with ⟨hc, _⟩ | ⟨u, hu, hc, hd⟩
    · exact absurd hc (by simp)
    · obtain rfl : u = c := by injection hc with h; exact h.symm
      exact ⟨hu, hd⟩
  have hdval : d = levenshteinDistance (strToLower input) (strToLower c) := by
    exact_mod_cast hattain.2
  refine ⟨?_, hattain.1, hdval, hall, by decide, by decide, by decide⟩
  unfold findClosestToolName
  rw [hcontains]
  simp only [Bool.false_eq_true, if_false, hscan]
  rw [if_neg]
  intro hle
  exact absurd (by exact_mod_cast hle : d ≤ fuzzyThreshold c.length) (not_le.mpr hthr)

/-- Witness for C9 (amended): input "abc" against pool `["x"]` — best
candidate "x", distance 3, threshold 1 — yields `match = none` with
distance 3. -/
theorem findClosest_threshold_witness :
    findClosestToolName "abc" [ "x"] = ⟨none, (3 : ℕ)⟩ :=
  (findClosest_threshold "abc" [ "x"] "x" 3 (by decide) (by decide) (by decide)).1

/-- A hit of the inner pattern loop comes from some listed pattern, and the
message names the field and that pattern. -/
theorem scanPatterns_some (param s : String) :
    ∀ (ps : List DangerPat) (msg : String), scanPatterns param s ps = some msg →
      ∃ p ∈ ps, reTest p.re s = true ∧ msg = dangerMessage param p.display := by
  intro ps
  induction ps with
  | nil => intro msg h; simp [scanPatterns] at h
  | cons p ps ih =>
    intro msg h
    by_cases hp : reTest p.re s
    · refine ⟨p, by simp, hp, ?_⟩
      rw [scanPatterns, if_pos hp] at h
      exact (Option.some.injEq _ _ ▸ h).symm
    · rw [scanPatterns, if_neg hp] at h
      obtain ⟨q, hq, hr, hm⟩ := ih msg h
      exact ⟨q, by simp [hq], hr, hm⟩

/-- A dangerous outcome of the rule scan is justified by some rule whose
tool filter matches, whose argument value is a string, and one of whose
patterns fires; the reason is the message naming that field and pattern. -/
theorem dangerScan_dangerous (toolName : String) (params : JsObj) :
    ∀ (rules : List DangerRule), (dangerScan toolName params rules).dangerous = true →
      ∃ ru ∈ rules, (ru.tool = "*" ∨ ru.tool = toolName) ∧
        ∃ s, getField params ru.param = some (.str s) ∧
          ∃ p ∈ ru.patterns, reTest p.re s = true ∧
            (dangerScan toolName params rules).reason =
              some (dangerMessage ru.param p.display) := by
  intro rules
  induction rules with
  | nil => intro h; simp [dangerScan] at h
  | cons r rs ih =>
    intro h
    by_cases hskip : r.tool ≠ "*" ∧ r.tool ≠ toolName
    · have hred : dangerScan toolName params (r :: rs) = dangerScan toolName params rs := by
        rw [dangerScan, if_pos hskip]
      rw [hred] at h ⊢
      obtain ⟨ru, hru, hf, hrest⟩ := ih h
      exact ⟨ru, by simp [hru], hf, hrest⟩
    · have hfil : r.tool = "*" ∨ r.tool = toolName := by
        rcases not_and_or.mp hskip with h1 | h2
        · exact Or.inl (not_not.mp h1)
        · exact Or.inr (not_not.mp h2)
      cases hg : getField params r.param with
      | none =>
        have hred : dangerScan toolName params (r :: rs) = dangerScan toolName params rs := by
          rw [dangerScan, if_neg hskip, hg]
        rw [hred] at h ⊢
        obtain ⟨ru, hru, hf, hrest⟩ := ih h
        exact ⟨ru, by simp [hru], hf, hrest⟩
      | some v =>
        cases v with
        | str s =>
          have hred : dangerScan toolName params (r :: rs) =
              (match scanPatterns r.param s r.patterns with
               | some reason => ({ dangerous := true, reason := some reason } : DangerResult)
               | none => dangerScan toolName params rs) := by
            rw [dangerScan, if_neg hskip, hg]
          rw [hred] at h ⊢
          cases hsp : scanPatterns r.param s r.patterns with
          | none =>
            rw [hsp] at h
            obtain ⟨ru, hru, hf, hrest⟩ := ih h
            exact ⟨ru, by simp [hru], hf, hrest⟩
          | some msg =>
            obtain ⟨p, hp, hre, hm⟩ := scanPatterns_some r.param s r.patterns msg hsp
            exact ⟨r, by simp, hfil, s, hg, p, hp, hre, by rw [hm]⟩
        | null =>
          have hred : dangerScan toolName params (r :: rs) = dangerScan toolName params rs := by
            rw [dangerScan, if_neg hskip, hg]
          rw [hred] at h ⊢
          obtain ⟨ru, hru, hf, hrest⟩ := ih h
          exact ⟨ru, by simp [hru], hf, hrest⟩
        | bool b =>
          have hred : dangerScan toolName params (r :: rs) = dangerScan toolName params rs := by
            rw [dangerScan, if_neg hskip, hg]
          rw [hred] at h ⊢
          obtain ⟨ru, hru, hf, hrest⟩ := ih h
          exact ⟨ru, by simp [hru], hf, hrest⟩
        | num n =>
          have hred : dangerScan toolName params (r :: rs) = dangerScan toolName params rs := by
            rw [dangerScan, if_neg hskip, hg]
          rw [hred] at h ⊢
          obtain ⟨ru, hru, hf, hrest⟩ := ih h
          exact ⟨ru, by simp [hru], hf, hrest⟩
        | arr xs =>
          have hred : dangerScan toolName params (r :: rs) = dangerScan toolName params rs := by
            rw [dangerScan, if_neg hskip, hg]
          rw [hred] at h ⊢
          obtain ⟨ru, hru, hf, hrest⟩ := ih h
          exact ⟨ru, by simp [hru], hf, hrest⟩
        | obj fs =>
          have hred : dangerScan toolName params (r :: rs) = dangerScan toolName params rs := by
            rw [dangerScan, if_neg hskip, hg]
          rw [hred] at h ⊢
          obtain ⟨ru, hru, hf, hrest⟩ := ih h
          exact ⟨ru, by simp [hru], hf, hrest⟩

/-- C1: whenever the danger scan fires (some rule's tool filter matches,
the argument value under its key is a string, and a pattern matches it) and
`blockDangerousCalls` is not disabled, the verdict has `blocked = true`,
`valid = false`, no repaired arguments, and a block reason naming the field
and the pattern — regardless of the schema and of the external checker's
outcome, because the danger check precedes and short-circuits schema
validation and repair. -/
theorem validateToolCall_danger_blocks (check : CheckFn) (errf : ErrFn)
    (cfg : PluginConfig) (toolName : String) (params : JsObj) (schema : Option ToolSchema)
    (hEnabled : cfg.blockDangerousCalls ≠ some false)
    (hDanger : (checkDangerousCall toolName params).dangerous = true) :
    (validateToolCall check errf cfg toolName params schema).blocked = true ∧
    (validateToolCall check errf cfg toolName params schema).valid = false ∧
    (validateToolCall check errf cfg toolName params schema).repaired = none ∧
    ∃ ru ∈ dangerousPatterns, (ru.tool = "*" ∨ ru.tool = toolName) ∧
      ∃ s, getField params ru.param = some (.str s) ∧
        ∃ p ∈ ru.patterns, reTest p.re s = true ∧
          (validateToolCall check errf cfg toolName params schema).blockReason =
            some (dangerMessage ru.param p.display) := by
  have hcond : cfg.blockDangerousCalls ≠ some false ∧
      (checkDangerousCall toolName params).dangerous = true := ⟨hEnabled, hDanger⟩
  obtain ⟨ru, hru, hfil, s, hs, p, hp, hre, hreason⟩ :=
    dangerScan_dangerous toolName params dangerousPatterns hDanger
  rw [validateToolCall, if_pos hcond]
  exact ⟨rfl, rfl, rfl, ru, hru, hfil, s, hs, p, hp, hre, hreason⟩

/-- Witness for C1: `bash` with `command = "ls; rm -rf /"` under the default
configuration is blocked even though a passing schema checker is supplied. -/
theorem validateToolCall_danger_blocks_witness :
    cfgD.blockDangerousCalls ≠ some false ∧
    (checkDangerousCall "bash" [("command", JsValue.str "ls; rm -rf /")]).dangerous = true ∧
    (validateToolCall (fun _ _ => true) (fun _ _ => []) cfgD "bash"
      [("command", JsValue.str "ls; rm -rf /")]
      (some ⟨"bash", some ⟨[("command", some "string")]⟩, none⟩)).blocked = true ∧
    (validateToolCall (fun _ _ => true) (fun _ _ => []) cfgD "bash"
      [("command", JsValue.str "ls; rm -rf /")]
      (some ⟨"bash", some ⟨[("command", some "string")]⟩, none⟩)).repaired = none := by
  refine ⟨by decide, by decide, ?_, ?_⟩
  · exact (validateToolCall_danger_blocks _ _ _ _ _ _ (by decide) (by decide)).1
  · exact (validateToolCall_danger_blocks _ _ _ _ _ _ (by decide) (by decide)).2.2.1

/-- A verdict built from empty errors is clean: valid, unblocked, no
reason. -/
theorem mkVerdict_nil (cfg : PluginConfig) (rep : Option JsObj) :
    mkVerdict cfg [] rep =
      { valid := true, errors := [], repaired := rep, blocked := false, blockReason := none } :=
  rfl

/-- When the danger branch is not taken, the verdict is the schema block's. -/
theorem validateToolCall_not_danger (check : CheckFn) (errf : ErrFn) (cfg : PluginConfig)
    (toolName : String) (params : JsObj) (schema : Option ToolSchema)
    (h : ¬(cfg.blockDangerousCalls ≠ some false ∧
      (checkDangerousCall toolName params).dangerous = true)) :
    validateToolCall check errf cfg toolName params schema =
      validateSchema check errf cfg params (schema.bind ToolSchema.parameters) := by
  rw [validateToolCall, if_neg h]

/-- Case analysis on the schema block: its verdict is one of four shapes. -/
theorem validateSchema_cases (check : CheckFn) (errf : ErrFn) (cfg : PluginConfig)
    (params : JsObj) (ots : Option TSchema) :
    validateSchema check errf cfg params ots = mkVerdict cfg [] none ∨
    (∃ ts, ots = some ts ∧ check ts params = false ∧
      (cfg.repairStrategy = some RepairStrategy.coerce ∨ cfg.repairStrategy = none) ∧
      ((coerceParams ts.properties params).2 && check ts (coerceParams ts.properties params).1) = true ∧
      validateSchema check errf cfg params ots =
        mkVerdict cfg [] (some (coerceParams ts.properties params).1)) ∨
    (∃ ts, ots = some ts ∧ check ts params = false ∧
      validateSchema check errf cfg params ots =
        mkVerdict cfg (fmtErrors (errf ts params)) none) := by
  cases ots with
  | none => exact Or.inl rfl
  | some ts =>
    by_cases hc : check ts params
    · left
      rw [validateSchema, if_pos hc]
    · by_cases hstrat : cfg.repairStrategy = some RepairStrategy.coerce ∨ cfg.repairStrategy = none
      · by_cases hrc : ((coerceParams ts.properties params).2 &&
            check ts (coerceParams ts.properties params).1) = true
        · right; left
          refine ⟨ts, rfl, by simpa using hc, hstrat, hrc, ?_⟩
          rw [validateSchema, if_neg hc, if_pos hstrat, if_pos hrc]
        · right; right
          refine ⟨ts, rfl, by simpa using hc, ?_⟩
          rw [validateSchema, if_neg hc, if_pos hstrat, if_neg hrc]
      · right; right
        refine ⟨ts, rfl, by simpa using hc, ?_⟩
        rw [validateSchema, if_neg hc, if_neg hstrat]

/-- C3: every verdict returned by `validateToolCall` satisfies both
invariants: a blocked verdict never carries repaired arguments, and a valid
verdict has no errors. -/
theorem validateToolCall_invariants (check : CheckFn) (errf : ErrFn) (cfg : PluginConfig)
    (toolName : String) (params : JsObj) (schema : Option ToolSchema) :
    ((validateToolCall check errf cfg toolName params schema).blocked = true →
      (validateToolCall check errf cfg toolName params schema).repaired = none) ∧
    ((validateToolCall check errf cfg toolName params schema).valid = true →
      (validateToolCall check errf cfg toolName params schema).errors = []) := by
  by_cases hd : cfg.blockDangerousCalls ≠ some false ∧
      (checkDangerousCall toolName params).dangerous = true
  · rw [validateToolCall, if_pos hd]
    exact ⟨fun _ => rfl, fun hv => by simp at hv⟩
  · rw [validateToolCall_not_danger check errf cfg toolName params schema hd]
    rcases validateSchema_cases check errf cfg params (schema.bind ToolSchema.parameters) with
      heq | ⟨ts, _, _, _, _, heq⟩ | ⟨ts, _, _, heq⟩
    · rw [heq, mkVerdict_nil]
      exact ⟨fun hb => by simp at hb, fun _ => rfl⟩
    · rw [heq, mkVerdict_nil]
      exact ⟨fun hb => by simp at hb, fun _ => rfl⟩
    · rw [heq]
      refine ⟨fun _ => rfl, fun hv => ?_⟩
      have : (fmtErrors (errf ts params)).isEmpty = true := hv
      simpa [List.isEmpty_iff] using this

/-- Witness for C3: a dangerous call's verdict has no repaired arguments,
and a clean call's verdict has no errors. -/
theorem validateToolCall_invariants_witness :
    (validateToolCall checkModel errfModel cfgD "bash"
      [("command", JsValue.str "ls; rm -rf /")] none).repaired = none ∧
    (validateToolCall checkModel errfModel cfgD "tools" [] none).errors = [] :=
  ⟨(validateToolCall_invariants checkModel errfModel cfgD "bash"
      [("command", JsValue.str "ls; rm -rf /")] none).1 (by decide),
   (validateToolCall_invariants checkModel errfModel cfgD "tools" [] none).2 (by decide)⟩

/-- C4: a verdict carries `repairedArguments` only when something was
coerced and the repaired copy passes re-validation against the same schema,
with the errors cleared (so the verdict is valid); if nothing was coerced
or the coerced copy still fails re-validation, `repairedArguments` is
absent and the original formatted errors are kept. -/
theorem validateToolCall_repair (check : CheckFn) (errf : ErrFn) (cfg : PluginConfig)
    (toolName : String) (params : JsObj) (s : ToolSchema) (ts : TSchema)
    (hts : s.parameters = some ts) :
    (∀ rep, (validateToolCall check errf cfg toolName params (some s)).repaired = some rep →
      rep = (coerceParams ts.properties params).1 ∧
      check ts rep = true ∧
      (validateToolCall check errf cfg toolName params (some s)).errors = [] ∧
      (validateToolCall check errf cfg toolName params (some s)).valid = true) ∧
    (¬(cfg.blockDangerousCalls ≠ some false ∧
        (checkDangerousCall toolName params).dangerous = true) →
      check ts params = false →
      (cfg.repairStrategy = some RepairStrategy.coerce ∨ cfg.repairStrategy = none) →
      ((coerceParams ts.properties params).2 = false ∨
        check ts (coerceParams ts.properties params).1 = false) →
      (validateToolCall check errf cfg toolName params (some s)).repaired = none ∧
      (validateToolCall check errf cfg toolName params (some s)).errors =
        fmtErrors (errf ts params)) := by
  have hbind : (some s).bind ToolSchema.parameters = some ts := by simp [hts]
  constructor
  · intro rep hrep
    by_cases hd : cfg.blockDangerousCalls ≠ some false ∧
        (checkDangerousCall toolName params).dangerous = true
    · rw [validateToolCall, if_pos hd] at hrep
      exact absurd hrep (by simp)
    · rw [validateToolCall_not_danger check errf cfg toolName params (some s) hd] at hrep ⊢
      rcases validateSchema_cases check errf cfg params ((some s).bind ToolSchema.parameters) with
        heq | ⟨ts2, hts2, _, _, hrc, heq⟩ | ⟨ts2, hts2, _, heq⟩
      · rw [heq, mkVerdict_nil] at hrep
        exact absurd hrep (by simp)
      · have hts3 : ts = ts2 := Option.some.inj (hbind.symm.trans hts2)
        subst hts3
        rw [heq, mkVerdict_nil] at hrep ⊢
        obtain rfl : rep = (coerceParams ts.properties params).1 :=
          (Option.some.inj hrep).symm
        exact ⟨rfl, (Bool.and_eq_true_iff.mp hrc).2, rfl, rfl⟩
      · rw [heq] at hrep
        exact absurd hrep (by simp [mkVerdict])
  · intro hd hcheck hstrat habandon
    rw [validateToolCall_not_danger check errf cfg toolName params (some s) hd, hbind,
      validateSchema, if_neg (by simp [hcheck]), if_pos hstrat, if_neg ?habandon]
    · exact ⟨rfl, rfl⟩
    · rcases habandon with h1 | h2
      · simp [h1]
      · simp [h2]

/-- Witness for C4: schema `{count: number}` with arguments `{count: "5"}`
under the default (coerce) strategy repairs to `{count: 5}`, which passes
re-validation, with errors cleared. -/
theorem validateToolCall_repair_witness :
    (validateToolCall checkModel errfModel cfgD "tool" [("count", JsValue.str "5")]
      (some ⟨"tool", some ⟨[("count", some "number")]⟩, none⟩)).repaired =
        some [("count", JsValue.num (.val (Dec.make 5 0)))] ∧
    checkModel ⟨[("count", some "number")]⟩ [("count", JsValue.num (.val (Dec.make 5 0)))] = true ∧
    (validateToolCall checkModel errfModel cfgD "tool" [("count", JsValue.str "5")]
      (some ⟨"tool", some ⟨[("count", some "number")]⟩, none⟩)).errors = [] := by
  have h := (validateToolCall_repair checkModel errfModel cfgD "tool"
    [("count", JsValue.str "5")] ⟨"tool", some ⟨[("count", some "number")]⟩, none⟩
    ⟨[("count", some "number")]⟩ rfl).1
    [("count", JsValue.num (.val (Dec.make 5 0)))] rfl
  exact ⟨rfl, h.2.1, h.2.2.1⟩

/-- With no schema the verdict is decided by the danger check alone:
either the blocking danger verdict or the clean pass verdict. -/
theorem validateToolCall_no_schema (check : CheckFn) (errf : ErrFn) (cfg : PluginConfig)
    (toolName : String) (params : JsObj) :
    validateToolCall check errf cfg toolName params none =
      if cfg.blockDangerousCalls ≠ some false ∧
          (checkDangerousCall toolName params).dangerous = true
      then { valid := false,
             errors := [(checkDangerousCall toolName params).reason.getD
               "Dangerous call detected"],
             repaired := none, blocked := true,
             blockReason := (checkDangerousCall toolName params).reason }
      else { valid := true, errors := [], repaired := none, blocked := false,
             blockReason := none } := by
  by_cases hd : cfg.blockDangerousCalls ≠ some false ∧
      (checkDangerousCall toolName params).dangerous = true
  · rw [validateToolCall, if_pos hd, if_pos hd]
  · rw [validateToolCall_not_danger check errf cfg toolName params none hd, if_neg hd]
    rfl

/-- C2: the hook handler invokes `validateToolCall` without a schema, so
its result is either a block decision carrying the danger reason (exactly
when the danger scan fires and is enabled) or pass-through (`none`,
original arguments proceed unmodified); it never returns repaired
parameters and never blocks via strict mode or
`blockOnValidationFailure`. -/
theorem handleBeforeToolCall_decision (check : CheckFn) (errf : ErrFn) (cfg : PluginConfig)
    (avail : List String) (stats : Stats) (toolName : String) (params : JsObj) :
    (∀ p, (handleBeforeToolCall check errf cfg avail stats toolName params).2 ≠
      some (HookResult.withParams p)) ∧
    (if cfg.blockDangerousCalls ≠ some false ∧
        (checkDangerousCall toolName params).dangerous = true
     then (handleBeforeToolCall check errf cfg avail stats toolName params).2 =
        some (HookResult.block (checkDangerousCall toolName params).reason)
     else (handleBeforeToolCall check errf cfg avail stats toolName params).2 = none) := by
  by_cases hd : cfg.blockDangerousCalls ≠ some false ∧
      (checkDangerousCall toolName params).dangerous = true
  · constructor
    · intro p
      simp [handleBeforeToolCall, validateToolCall_no_schema, hd, handlerReact]
    · simp only [if_pos hd]
      simp [handleBeforeToolCall, validateToolCall_no_schema, hd, handlerReact]
  · constructor
    · intro p
      simp [handleBeforeToolCall, validateToolCall_no_schema, hd, handlerReact]
    · simp only [if_neg hd]
      simp [handleBeforeToolCall, validateToolCall_no_schema, hd, handlerReact]

/-- Witness for C2: a path-traversal call is blocked by the handler with
the danger reason. -/
theorem handleBeforeToolCall_decision_witness :
    (handleBeforeToolCall checkModel errfModel cfgD [] statsZero "read_file"
      [("path", JsValue.str "../../../etc/passwd")]).2 =
      some (HookResult.block (checkDangerousCall "read_file"
        [("path", JsValue.str "../../../etc/passwd")]).reason) := by
  have h := (handleBeforeToolCall_decision checkModel errfModel cfgD [] statsZero "read_file"
    [("path", JsValue.str "../../../etc/passwd")]).2
  rwa [if_pos (by decide)] at h

/-- C6: across a handler invocation, the validated counter always gains
exactly one; the blocked counter gains one exactly when the verdict
blocks; the repaired counter gains one exactly when the verdict carries
repaired arguments (never, in this path); the errors counter gains one
exactly on a non-blocked invalid verdict (a schema validation failure,
which cannot occur in this schema-less path); all four counters are
monotonically non-decreasing. -/
theorem handleBeforeToolCall_stats (check : CheckFn) (errf : ErrFn) (cfg : PluginConfig)
    (avail : List String) (stats : Stats) (toolName : String) (params : JsObj) :
    (handleBeforeToolCall check errf cfg avail stats toolName params).1.validated =
      stats.validated + 1 ∧
    (handleBeforeToolCall check errf cfg avail stats toolName params).1.blocked =
      stats.blocked +
        (if (validateToolCall check errf cfg toolName params none).blocked then 1 else 0) ∧
    (handleBeforeToolCall check errf cfg avail stats toolName params).1.repaired =
      stats.repaired +
        (if (validateToolCall check errf cfg toolName params none).repaired.isSome
         then 1 else 0) ∧
    (handleBeforeToolCall check errf cfg avail stats toolName params).1.errors =
      stats.errors +
        (if (validateToolCall check errf cfg toolName params none).blocked = false ∧
            (validateToolCall check errf cfg toolName params none).valid = false
         then 1 else 0) ∧
    stats.validated ≤ (handleBeforeToolCall check errf cfg avail stats toolName params).1.validated ∧
    stats.repaired ≤ (handleBeforeToolCall check errf cfg avail stats toolName params).1.repaired ∧
    stats.blocked ≤ (handleBeforeToolCall check errf cfg avail stats toolName params).1.blocked ∧
    stats.errors ≤ (handleBeforeToolCall check errf cfg avail stats toolName params).1.errors := by
  by_cases hd : cfg.blockDangerousCalls ≠ some false ∧
      (checkDangerousCall toolName params).dangerous = true <;>
    simp [handleBeforeToolCall, validateToolCall_no_schema, hd, handlerReact]

/-- C7: for a schema-checked verdict that is not blocked, not valid and
unrepaired, the handler blocks the call with `block = true` and a reason
quoting the validation errors when strict mode is on; with strict mode off
the call proceeds with its original arguments; the errors counter is
bumped either way (the failure is counted). -/
theorem handlerReact_strict_mode (check : CheckFn) (errf : ErrFn) (cfg : PluginConfig)
    (stats : Stats) (toolName : String) (params : JsObj) (s : ToolSchema)
    (hblocked : (validateToolCall check errf cfg toolName params (some s)).blocked = false)
    (hvalid : (validateToolCall check errf cfg toolName params (some s)).valid = false)
    (hrep : (validateToolCall check errf cfg toolName params (some s)).repaired = none) :
    (cfg.strictMode.getD false = true →
      (handlerReact cfg stats (validateToolCall check errf cfg toolName params (some s))).2 =
        some (HookResult.block (some ("Validation failed: " ++ String.intercalate ", "
          (validateToolCall check errf cfg toolName params (some s)).errors)))) ∧
    (cfg.strictMode.getD false = false →
      (handlerReact cfg stats (validateToolCall check errf cfg toolName params (some s))).2 =
        none) ∧
    (handlerReact cfg stats (validateToolCall check errf cfg toolName params (some s))).1.errors =
      stats.errors + 1 := by
  refine ⟨fun hstrict => ?_, fun hstrict => ?_, ?_⟩ <;>
    simp [handlerReact, hblocked, hvalid, hrep, *]
  split <;> rfl

/-- Witness for C7: strict mode on, schema `{count: number}`, arguments
`{count: "abc"}` (unrepairable: "abc" is not numeric) — the handler blocks
with the quoted errors and counts the failure. -/
theorem handlerReact_strict_mode_witness :
    (handlerReact cfgStrict statsZero (validateToolCall checkModel errfModel cfgStrict "tool"
      [("count", JsValue.str "abc")]
      (some ⟨"tool", some ⟨[("count", some "number")]⟩, none⟩))).2 =
      some (HookResult.block (some ("Validation failed: " ++ String.intercalate ", "
        (validateToolCall checkModel errfModel cfgStrict "tool"
          [("count", JsValue.str "abc")]
          (some ⟨"tool", some ⟨[("count", some "number")]⟩, none⟩)).errors))) ∧
    (handlerReact cfgStrict statsZero (validateToolCall checkModel errfModel cfgStrict "tool"
      [("count", JsValue.str "abc")]
      (some ⟨"tool", some ⟨[("count", some "number")]⟩, none⟩))).1.errors =
      statsZero.errors + 1 := by
  have h := handlerReact_strict_mode checkModel errfModel cfgStrict statsZero "tool"
    [("count", JsValue.str "abc")] ⟨"tool", some ⟨[("count", some "number")]⟩, none⟩
    (by decide) (by decide) (by rfl)
  exact ⟨h.1 rfl, h.2.2⟩

end ToolValidator
